import Mathlib

/-!
Verification of the VirtualSpace multiplayer backend (`src/backend/index.js`).

The backend keeps two per-connection tables (`players`, `playerUpdateRate`),
handles `join` / `playerMove` / `disconnect` socket events, and runs a
periodic heartbeat sweep.  This file gives a shallow embedding of those
handlers and proves or refutes the frozen claims about them.

Modelling conventions:
* socket ids are natural numbers;
* timestamps (`Date.now()`) are integers (milliseconds);
* JavaScript numbers in the geometry pipeline are modelled as real numbers
  (ideal real arithmetic, ignoring IEEE-754 rounding); the rate limiter only
  does integer arithmetic and stays fully computable;
* the two global tables are association lists keyed by socket id.  JavaScript
  mutates the stored objects in place; the embedding writes the updated
  object back into the table at each mutation point;
* payload fields that may be absent or non-numeric are `Option`-typed
  (`undefined` / wrong `typeof` becomes `none`).
-/

/-! ## Basic data -/

/-- A 3D vector with real components: the `{x, y, z}` objects of the code. -/
structure Vec3 where
  x : ℝ
  y : ℝ
  z : ℝ

/-- One entry of the backend `players` table (`players[socket.id]`).
`characterType` is a JavaScript number (modelled as `ℚ`): the code only
bounds-checks it, so nothing forces it to be an integer. -/
structure Player where
  nickname : String
  characterType : ℚ
  position : Vec3
  rotation : Vec3
  lastUpdate : ℤ

/-- One entry of the backend `playerUpdateRate` table:
`{ lastUpdate: timestamp, updateCount: number }`. -/
structure RateState where
  lastUpdate : ℤ
  updateCount : ℕ
deriving DecidableEq

/-- Association-list lookup by socket id (JS property read `tbl[id]`). -/
def lookupKey {α : Type} (k : ℕ) : List (ℕ × α) → Option α
  | [] => none
  | (k', v) :: rest => if k' = k then some v else lookupKey k rest

/-- Association-list write (JS property assignment `tbl[id] = v`): replaces
the binding if present, otherwise appends it. -/
def setKey {α : Type} (k : ℕ) (v : α) : List (ℕ × α) → List (ℕ × α)
  | [] => [(k, v)]
  | (k', v') :: rest => if k' = k then (k, v) :: rest else (k', v') :: setKey k v rest

/-- Association-list delete (JS `delete tbl[id]`). -/
def delKey {α : Type} (k : ℕ) : List (ℕ × α) → List (ℕ × α)
  | [] => []
  | (k', v') :: rest => if k' = k then delKey k rest else (k', v') :: delKey k rest

/-- The whole mutable state of the backend: the `players` registry and the
`playerUpdateRate` table. -/
structure ServerState where
  players : List (ℕ × Player)
  playerUpdateRate : List (ℕ × RateState)

/-- State of the server at startup: both tables empty. -/
def initState : ServerState := ⟨[], []⟩

/-! ## Configuration constants (the `CONFIG` object) -/

/-- CONFIG.MAX_UPDATE_RATE: maximum accepted updates per second per player. -/
def MAX_UPDATE_RATE : ℕ := 20

/-- CONFIG.MIN_UPDATE_INTERVAL: minimum interval between updates (ms). -/
def MIN_UPDATE_INTERVAL : ℤ := 50

/-- CONFIG.MAX_POSITION_DISTANCE: maximum planar distance from the centre. -/
def MAX_POSITION_DISTANCE : ℝ := 150

/-- CONFIG.MAX_VELOCITY: maximum allowed speed (units/second). -/
def MAX_VELOCITY : ℝ := 15

/-- CONFIG.HEARTBEAT_TIMEOUT: inactivity timeout (ms). -/
def HEARTBEAT_TIMEOUT : ℤ := 10000

/-- CONFIG.POSITION_THRESHOLD: minimal positional change worth broadcasting. -/
def POSITION_THRESHOLD : ℝ := 0.01

/-! ## Rate limiting (lines 128-156 of the `playerMove` handler)

This part of the handler only touches integers and is kept separate and
computable.  `rateAdmit` returns the admission decision together with the
state of the (possibly new) `playerUpdateRate[socket.id]` object after the
block, including the unconditional `lastUpdate = now` write of line 156. -/

/-- Admission decision of the `playerMove` rate-limiting block.  For an
existing entry: deny when the gap since the last accepted update is below
`MIN_UPDATE_INTERVAL`; reset `updateCount` when the gap exceeds 1000 ms;
deny when `updateCount` reached `MAX_UPDATE_RATE`; otherwise accept,
incrementing the counter and stamping `lastUpdate = now`.  A connection with
no entry gets a fresh `{ lastUpdate: now, updateCount: 1 }` and is accepted. -/
def rateAdmit (rl : Option RateState) (now : ℤ) : Bool × RateState :=
  match rl with
  | some r =>
    let timeSinceLastUpdate := now - r.lastUpdate
    if timeSinceLastUpdate < MIN_UPDATE_INTERVAL then
      (false, r)
    else
      let r1 := if timeSinceLastUpdate > 1000 then { r with updateCount := 0 } else r
      if r1.updateCount ≥ MAX_UPDATE_RATE then
        (false, r1)
      else
        (true, { lastUpdate := now, updateCount := r1.updateCount + 1 })
  | none => (true, { lastUpdate := now, updateCount := 1 })

/-- Accepted updates of a timed submission sequence, threading `rateAdmit`
from a given entry state: every accepted submission is recorded together
with the value of `updateCount` right after it was accepted. -/
def acceptedLog (r : RateState) : List ℤ → List (ℤ × ℕ)
  | [] => []
  | t :: ts =>
    let res := rateAdmit (some r) t
    if res.1 then (t, res.2.updateCount) :: acceptedLog res.2 ts
    else acceptedLog res.2 ts

/-- Number of accepted updates whose timestamp falls inside the closed
rolling window `[T, T + 1000]`. -/
def windowCount (r : RateState) (ts : List ℤ) (T : ℤ) : ℕ :=
  ((acceptedLog r ts).filter (fun tc => decide (T ≤ tc.1) && decide (tc.1 ≤ T + 1000))).length

/-- Admission decisions (in submission order) of the code's rate limiter,
starting from an existing entry. -/
def codeDecisions (r : RateState) : List ℤ → List Bool
  | [] => []
  | t :: ts =>
    let res := rateAdmit (some r) t
    res.1 :: codeDecisions res.2 ts

/-- Modelled from the spec (section 4.3): the reference rate-limiter state,
with a `windowStart` anchor kept separately from `lastAcceptedAt`. -/
structure SpecRateState where
  windowStart : ℤ
  updateCount : ℕ
  lastAcceptedAt : ℤ
deriving DecidableEq

/-- Modelled from the spec (section 4.3), word for word: deny if
`now - lastAcceptedAt < MIN_UPDATE_INTERVAL`; otherwise, if
`now - windowStart > 1000` reset `windowStart := now` and `updateCount := 0`;
deny if `updateCount ≥ MAX_UPDATE_RATE`; else allow, increment `updateCount`
and set `lastAcceptedAt := now`. -/
def specAdmit (r : SpecRateState) (now : ℤ) : Bool × SpecRateState :=
  if now - r.lastAcceptedAt < MIN_UPDATE_INTERVAL then
    (false, r)
  else
    let r1 := if now - r.windowStart > 1000 then
        { r with windowStart := now, updateCount := 0 }
      else r
    if r1.updateCount ≥ MAX_UPDATE_RATE then
      (false, r1)
    else
      (true, { r1 with updateCount := r1.updateCount + 1, lastAcceptedAt := now })

/-- Admission decisions (in submission order) of the spec's reference
algorithm. -/
def specDecisions (r : SpecRateState) : List ℤ → List Bool
  | [] => []
  | t :: ts =>
    let res := specAdmit r t
    res.1 :: specDecisions res.2 ts

/-- Modelled from the spec, amended as the counterexample to C4 forces: the
reference algorithm of section 4.3 with the counting window re-anchored at
every accepted update, so that `windowStart` always coincides with
`lastAcceptedAt` and the counter resets exactly after a gap of more than
1000 ms since the last accepted update. -/
def specAdmitMerged (r : SpecRateState) (now : ℤ) : Bool × SpecRateState :=
  if now - r.lastAcceptedAt < MIN_UPDATE_INTERVAL then
    (false, r)
  else
    let r1 := if now - r.lastAcceptedAt > 1000 then
        { r with windowStart := now, updateCount := 0 }
      else r
    if r1.updateCount ≥ MAX_UPDATE_RATE then
      (false, r1)
    else
      (true, { windowStart := now, updateCount := r1.updateCount + 1, lastAcceptedAt := now })

/-- Embedding of a code-side rate entry into the spec-side state: the code
keeps no separate window anchor, so `windowStart` is `lastUpdate` itself. -/
def toSpecState (r : RateState) : SpecRateState :=
  { windowStart := r.lastUpdate, updateCount := r.updateCount, lastAcceptedAt := r.lastUpdate }

/-- The 61 submission timestamps `49, 98, ..., 2989`: consecutive
submissions 49 ms apart, i.e. faster than `MIN_UPDATE_INTERVAL`. -/
def fastTimes : List ℤ := (List.range 61).map (fun k => 49 * ((k : ℤ) + 1))

/-- Whether every submission of the list follows the previous one by less
than `gap` milliseconds. -/
def gapsBelow (gap : ℤ) : List ℤ → Bool
  | a :: b :: rest => decide (b - a < gap) && gapsBelow gap (b :: rest)
  | _ => true

/-- The 21 submission timestamps `50, 100, ..., 1000, 1050`. -/
def evenTimes : List ℤ := (List.range 21).map (fun k => 50 * ((k : ℤ) + 1))

/-! ## Payloads and outbound events -/

/-- The `playerMove` payload `{ x, y, z, ry }`; a field is `none` when it is
absent or not a number (`typeof x !== 'number'`). -/
structure MoveData where
  x : Option ℝ
  y : Option ℝ
  z : Option ℝ
  ry : Option ℝ

/-- The `join` payload `{ nickname, characterType }`, with `none` for
`undefined` fields. -/
structure JoinData where
  nickname : Option String
  characterType : Option ℚ

/-- Outbound socket events of the backend, with the payload fields the
claims talk about. -/
inductive OutEvent where
  | errorMsg (message : String)
  | currentPlayers (ps : List (ℕ × Player))
  | newPlayer (sid : ℕ) (p : Player)
  | playerMoved (sid : ℕ) (position rotation : Vec3)
  | playerDisconnected (sid : ℕ)

/-- An emission together with its addressing mode: `socket.emit` goes to the
one socket, `socket.broadcast.emit` to every connection except the sender,
`io.emit` to every connection. -/
inductive Emit where
  | toSender (sid : ℕ) (ev : OutEvent)
  | broadcastFrom (sid : ℕ) (ev : OutEvent)
  | toAll (ev : OutEvent)

/-- Whether an emission is delivered to connection `conn`, by the Socket.IO
semantics of the three addressing modes. -/
def deliveredTo (e : Emit) (conn : ℕ) : Bool :=
  match e with
  | .toSender s _ => conn == s
  | .broadcastFrom s _ => !(conn == s)
  | .toAll _ => true

/-! ## The join handler (lines 50-117) -/

/-- Error message sent for a rejected nickname. -/
def nicknameError : String := "Nickname inválido"

/-- Error message sent for a rejected character type. -/
def characterTypeError : String := "Tipo de personagem inválido"

/-- JS `String.prototype.trim()`: strip leading and trailing whitespace,
modelled over the character list. -/
def jsTrim (s : String) : String :=
  ⟨((s.data.dropWhile Char.isWhitespace).reverse.dropWhile Char.isWhitespace).reverse⟩

/-- JS `.slice(0, n)` on a string: its first `n` characters. -/
def jsTake (s : String) (n : ℕ) : String :=
  ⟨s.data.take n⟩

/-- js line 55: `!nickname || nickname.trim().length === 0`.  An `undefined`
nickname and the empty string are both falsy, hence the first disjunct. -/
def nicknameInvalid : Option String → Bool
  | none => true
  | some n => n == "" || (jsTrim n).length == 0

/-- js line 61: `characterType === undefined || characterType < 0 ||
characterType > 2`.  Only the bounds are checked: nothing requires an
integer. -/
def characterTypeInvalid : Option ℚ → Bool
  | none => true
  | some ct => decide (ct < 0) || decide (ct > 2)

/-- The `join` handler.  `angle`, `dist` and `spawnRy` stand for the three
`Math.random()` draws: `angle = random * 2π`, `dist = random * spawnRadius`
(so `0 ≤ dist < 40`), `spawnRy = random * 2π`.  On invalid data it emits an
error to the sender and returns; on success it stores the Player and a fresh
rate entry, sends `currentPlayers` to the joiner and, when other players
exist, broadcasts `newPlayer`. -/
noncomputable def handleJoin (st : ServerState) (sid : ℕ) (d : JoinData) (now : ℤ)
    (angle dist spawnRy : ℝ) : ServerState × List Emit :=
  if nicknameInvalid d.nickname then
    (st, [.toSender sid (.errorMsg nicknameError)])
  else if characterTypeInvalid d.characterType then
    (st, [.toSender sid (.errorMsg characterTypeError)])
  else
    let spawnPosition : Vec3 := ⟨Real.cos angle * dist, 1, Real.sin angle * dist⟩
    let spawnRotation : Vec3 := ⟨0, spawnRy, 0⟩
    let p : Player :=
      { nickname := jsTake (jsTrim (d.nickname.getD "")) 12
        characterType := d.characterType.getD 0
        position := spawnPosition
        rotation := spawnRotation
        lastUpdate := now }
    let players1 := setKey sid p st.players
    let rate1 := setKey sid { lastUpdate := now, updateCount := 0 } st.playerUpdateRate
    (⟨players1, rate1⟩,
      [.toSender sid (.currentPlayers players1)] ++
        (if 1 < players1.length then [.broadcastFrom sid (.newPlayer sid p)] else []))

/-! ## The move validation pipeline (lines 158-215) -/

/-- js `a || b` on two numbers: `b` when `a` is `0` (falsy), else `a`. -/
def jsOrInt (a b : ℤ) : ℤ := if a = 0 then b else a

/-- Line 162: `typeof x === 'number' ? x : 0`. -/
noncomputable def validateX (d : MoveData) : ℝ := d.x.getD 0

/-- Line 163: `typeof y === 'number' ? (y === 0 ? 1.0 : y) : 1.0` — height
normalization, a reported `0` means "uninitialized". -/
noncomputable def validateY (d : MoveData) : ℝ :=
  match d.y with
  | some v => if v = 0 then 1 else v
  | none => 1

/-- Line 164: `typeof z === 'number' ? z : 0`. -/
noncomputable def validateZ (d : MoveData) : ℝ := d.z.getD 0

/-- Line 165: `typeof ry === 'number' ? ry : 0`. -/
noncomputable def validateRy (d : MoveData) : ℝ := d.ry.getD 0

/-- `Math.atan2(y, x)`: the argument of the complex number `x + y·i`. -/
noncomputable def atan2 (y x : ℝ) : ℝ := Complex.arg ⟨x, y⟩

/-- Lines 167-175: if the planar distance from the origin exceeds
`MAX_POSITION_DISTANCE`, project the point back onto the circle of that
radius along the bearing `Math.atan2(z, x)`. -/
noncomputable def clampToBounds (x z : ℝ) : ℝ × ℝ :=
  let distanceFromCenter := Real.sqrt (x ^ 2 + z ^ 2)
  if distanceFromCenter > MAX_POSITION_DISTANCE then
    let angle := atan2 z x
    (Real.cos angle * MAX_POSITION_DISTANCE, Real.sin angle * MAX_POSITION_DISTANCE)
  else
    (x, z)

/-- Lines 177-202, the velocity/teleport check: when `timeDelta > 0`, a move
whose implied speed exceeds `MAX_VELOCITY` over a distance in the open band
(5, 20) is treated as a suspected teleport and the old position is kept. -/
noncomputable def velocityGate (oldPos : Vec3) (x y z : ℝ) (timeDelta : ℤ) : Vec3 :=
  let dx := x - oldPos.x
  let dy := y - oldPos.y
  let dz := z - oldPos.z
  let distance := Real.sqrt (dx ^ 2 + dy ^ 2 + dz ^ 2)
  if 0 < timeDelta then
    let velocity := distance / ((timeDelta : ℝ) / 1000)
    if velocity > MAX_VELOCITY ∧ distance > 5 then
      if distance < 20 then ⟨oldPos.x, oldPos.y, oldPos.z⟩ else ⟨x, y, z⟩
    else ⟨x, y, z⟩
  else ⟨x, y, z⟩

/-- The validated `(position, ry)` an accepted `playerMove` will store.
Crucial detail of line 186: `rateLimit` is the local alias taken at line 130
of the object stored in `playerUpdateRate`, and line 156 has already set
that object's `lastUpdate` to `now`, so for a pre-existing entry
`rateLimit?.lastUpdate` reads back `now` (and `timeDelta` is `now - now = 0`
whenever `now ≠ 0`); only for a connection that had no entry does the
`|| now - CONFIG.MIN_UPDATE_INTERVAL` fallback apply. -/
noncomputable def validatedMove (st : ServerState) (sid : ℕ) (d : MoveData) (now : ℤ) :
    Vec3 × ℝ :=
  let rlOpt := lookupKey sid st.playerUpdateRate
  let res := rateAdmit rlOpt now
  let xz := clampToBounds (validateX d) (validateZ d)
  let timeDelta : ℤ :=
    now - (match rlOpt with
      | some _ => jsOrInt res.2.lastUpdate (now - MIN_UPDATE_INTERVAL)
      | none => now - MIN_UPDATE_INTERVAL)
  let pos :=
    match lookupKey sid st.players with
    | some pl => velocityGate pl.position xz.1 (validateY d) xz.2 timeDelta
    | none => ⟨xz.1, validateY d, xz.2⟩
  (pos, validateRy d)

/-- The `playerMove` handler (lines 121-244).  A falsy or non-object payload
is dropped.  The rate-limiting block stores its updated entry (the in-place
mutations of lines 142, 151, 153 and 156) and denied updates return with no
further effect.  An accepted update stores the validated position, a
rotation `{x: 0, y: ry, z: 0}` and a fresh `lastUpdate`, and broadcasts
`playerMoved` to everyone except the sender iff the change is significant
(the source's `!oldPos` disjunct can never fire: a stored Player always has
a position). -/
noncomputable def handleMove (st : ServerState) (sid : ℕ) (data : Option MoveData)
    (now : ℤ) : ServerState × List Emit :=
  match data with
  | none => (st, [])
  | some d =>
    let res := rateAdmit (lookupKey sid st.playerUpdateRate) now
    let st1 : ServerState := ⟨st.players, setKey sid res.2 st.playerUpdateRate⟩
    if res.1 = false then
      (st1, [])
    else
      let vm := validatedMove st sid d now
      let validatedPosition := vm.1
      let validatedRotation : Vec3 := ⟨0, vm.2, 0⟩
      match lookupKey sid st.players with
      | some pl =>
        let newPlayers := setKey sid
          { pl with position := validatedPosition, rotation := validatedRotation,
                    lastUpdate := now } st1.players
        if POSITION_THRESHOLD < |validatedPosition.x - pl.position.x| ∨
            POSITION_THRESHOLD < |validatedPosition.y - pl.position.y| ∨
            POSITION_THRESHOLD < |validatedPosition.z - pl.position.z| ∨
            (0.01 : ℝ) < |vm.2 - pl.rotation.y| then
          (⟨newPlayers, st1.playerUpdateRate⟩,
            [.broadcastFrom sid (.playerMoved sid validatedPosition validatedRotation)])
        else
          (⟨newPlayers, st1.playerUpdateRate⟩, [])
      | none => (st1, [])

/-! ## Disconnect handler (lines 247-264) and heartbeat sweep (lines 271-305) -/

/-- The `disconnect` handler: when a Player exists for the socket, delete it
and its rate entry and broadcast `playerDisconnected`; otherwise do
nothing. -/
def handleDisconnect (st : ServerState) (sid : ℕ) : ServerState × List Emit :=
  match lookupKey sid st.players with
  | some _ =>
    (⟨delKey sid st.players, delKey sid st.playerUpdateRate⟩,
      [.broadcastFrom sid (.playerDisconnected sid)])
  | none => (st, [])

/-- The `inactivePlayers` collection pass of the heartbeat: ids whose
`lastUpdate` is more than `HEARTBEAT_TIMEOUT` in the past (the source's
`player.lastUpdate || 0` equals `player.lastUpdate`, which is always set
and only matters when it is the falsy `0`, where both read `0`). -/
def inactiveIds (st : ServerState) (now : ℤ) : List ℕ :=
  (st.players.filter (fun kv => decide (now - kv.2.lastUpdate > HEARTBEAT_TIMEOUT))).map
    Prod.fst

/-- The removal pass of the heartbeat: for each collected id still present,
delete the Player and its rate entry and `io.emit` a `playerDisconnected`;
an id already absent is skipped. -/
def evictLoop : ServerState × List Emit → List ℕ → ServerState × List Emit
  | acc, [] => acc
  | (st, evs), pid :: rest =>
    match lookupKey pid st.players with
    | some _ =>
      evictLoop (⟨delKey pid st.players, delKey pid st.playerUpdateRate⟩,
        evs ++ [.toAll (.playerDisconnected pid)]) rest
    | none => evictLoop (st, evs) rest

/-- One run of the 5-second heartbeat interval body. -/
def heartbeatSweep (st : ServerState) (now : ℤ) : ServerState × List Emit :=
  evictLoop (st, []) (inactiveIds st now)

/-! ## Server traces -/

/-- One inbound occurrence the backend reacts to.  `join` carries the three
random draws used for the spawn transform. -/
inductive ServerEvent where
  | join (sid : ℕ) (d : JoinData) (now : ℤ) (angle dist spawnRy : ℝ)
  | move (sid : ℕ) (data : Option MoveData) (now : ℤ)
  | disconnect (sid : ℕ)
  | sweep (now : ℤ)

/-- Dispatch of one event to its handler. -/
noncomputable def step (st : ServerState) : ServerEvent → ServerState × List Emit
  | .join sid d now angle dist spawnRy => handleJoin st sid d now angle dist spawnRy
  | .move sid data now => handleMove st sid data now
  | .disconnect sid => handleDisconnect st sid
  | .sweep now => heartbeatSweep st now

/-- The state after one event. -/
noncomputable def stepState (st : ServerState) (e : ServerEvent) : ServerState :=
  (step st e).1

/-- The state after a sequence of events. -/
noncomputable def run (st : ServerState) : List ServerEvent → ServerState
  | [] => st
  | e :: es => run (stepState st e) es

/-- Well-formedness of an event: the spawn-distance draw of a `join` is a
`Math.random() * spawnRadius` value, so it lies in `[0, 40)`. -/
def EventOK : ServerEvent → Prop
  | .join _ _ _ _ dist _ => 0 ≤ dist ∧ dist < 40
  | _ => True

/-- Invariant of claim C2: every stored position is within
`MAX_POSITION_DISTANCE` of the origin in the horizontal plane. -/
def InBounds (st : ServerState) : Prop :=
  ∀ sid p, lookupKey sid st.players = some p →
    Real.sqrt (p.position.x ^ 2 + p.position.z ^ 2) ≤ MAX_POSITION_DISTANCE

/-- One half of the pairing invariant of claim C8: every connection with a
Player also has a rate-limiting entry. -/
def PlayerHasRate (st : ServerState) : Prop :=
  ∀ sid, (lookupKey sid st.players).isSome → (lookupKey sid st.playerUpdateRate).isSome

/-! ## Concrete evaluation scenarios -/

/-- A joined player sitting at `(0, 1, 0)` whose last accepted update was at
`t = 1000`. -/
noncomputable def pA : Player := ⟨"Bob", 0, ⟨0, 1, 0⟩, ⟨0, 0, 0⟩, 1000⟩

/-- The server state holding just `pA` on connection 1. -/
noncomputable def stA : ServerState := ⟨[(1, pA)], [(1, ⟨1000, 0⟩)]⟩

/-- A move claiming `(10, 1, 0)` with yaw `0`. -/
noncomputable def dA : MoveData := ⟨some 10, some 1, some 0, some 0⟩

/-- `pA` after the move `dA` is accepted at `t = 1100`. -/
noncomputable def pA' : Player := ⟨"Bob", 0, ⟨10, 1, 0⟩, ⟨0, 0, 0⟩, 1100⟩

/-- A sub-threshold move claiming `(0.005, 1, 0)` with yaw `0.005`. -/
noncomputable def dB : MoveData := ⟨some 0.005, some 1, some 0, some 0.005⟩

/-- The Player created by a join of `"Ana"` with characterType 1 at time 5
with all three random draws equal to `0`. -/
noncomputable def pJ : Player := ⟨"Ana", 1, ⟨Real.cos 0 * 0, 1, Real.sin 0 * 0⟩, ⟨0, 0, 0⟩, 5⟩

/-- A joined player whose last accepted update was at time `0`, about to be
evicted by the heartbeat. -/
noncomputable def pH : Player := ⟨"Ana", 1, ⟨0, 1, 0⟩, ⟨0, 0, 0⟩, 0⟩

/-- The server state holding just `pH` on connection 1. -/
noncomputable def stH : ServerState := ⟨[(1, pH)], [(1, ⟨0, 0⟩)]⟩

/-- Bound on how many more updates can be accepted inside the window
`[T, T + 1000]`, given the current rate entry: none once the entry's last
accepted update is past the window, the remaining budget of the counter
while it is inside the window, and the full budget before it. -/
def windowBound (r : RateState) (T : ℤ) : ℕ :=
  if T + 1000 < r.lastUpdate then 0
  else if T ≤ r.lastUpdate then MAX_UPDATE_RATE - r.updateCount
  else MAX_UPDATE_RATE

/-! ## Lemmas about the table primitives -/

theorem lookupKey_setKey {α : Type} (k k' : ℕ) (v : α) (l : List (ℕ × α)) :
    lookupKey k' (setKey k v l) = if k = k' then some v else lookupKey k' l := by
  induction l with
  | nil => simp [lookupKey, setKey]
  | cons hd tl ih =>
    obtain ⟨k0, v0⟩ := hd
    by_cases h : k0 = k
    · subst h
      by_cases h' : k0 = k'
      · subst h'
        simp [setKey, lookupKey]
      · simp [setKey, lookupKey, h']
    · have hk := Ne.symm h
      by_cases h' : k0 = k'
      · subst h'
        simp [setKey, lookupKey, h, hk]
      · simp [setKey, lookupKey, h, h', ih]

theorem lookupKey_delKey {α : Type} (k k' : ℕ) (l : List (ℕ × α)) :
    lookupKey k' (delKey k l) = if k = k' then none else lookupKey k' l := by
  induction l with
  | nil => simp [lookupKey, delKey]
  | cons hd tl ih =>
    obtain ⟨k0, v0⟩ := hd
    by_cases h : k0 = k
    · subst h
      by_cases h' : k0 = k'
      · subst h'
        simp [delKey, ih]
      · simp [delKey, lookupKey, h', ih]
    · have hk := Ne.symm h
      by_cases h' : k0 = k'
      · subst h'
        simp [delKey, lookupKey, h, hk]
      · simp [delKey, lookupKey, h, h', ih]

theorem lookupKey_mem {α : Type} {k : ℕ} {v : α} {l : List (ℕ × α)} :
    lookupKey k l = some v → (k, v) ∈ l := by
  induction l with
  | nil => simp [lookupKey]
  | cons hd tl ih =>
    obtain ⟨k0, v0⟩ := hd
    by_cases h : k0 = k
    · subst h
      intro hv
      rw [lookupKey] at hv
      simp at hv
      simp [hv]
    · intro hv
      rw [lookupKey] at hv
      simp only [if_neg h] at hv
      exact List.mem_cons_of_mem _ (ih hv)

/-! ## Rate limiter: case lemmas and the rolling-window bound (claim C3) -/

theorem rateAdmit_deny_interval {r : RateState} {now : ℤ}
    (h : now - r.lastUpdate < MIN_UPDATE_INTERVAL) :
    rateAdmit (some r) now = (false, r) := by
  simp [rateAdmit, h]

theorem rateAdmit_accept_reset {r : RateState} {now : ℤ}
    (h50 : ¬ now - r.lastUpdate < MIN_UPDATE_INTERVAL)
    (h1000 : now - r.lastUpdate > 1000) :
    rateAdmit (some r) now = (true, ⟨now, 1⟩) := by
  simp [rateAdmit, h50, h1000, MAX_UPDATE_RATE]

theorem rateAdmit_deny_count {r : RateState} {now : ℤ}
    (h50 : ¬ now - r.lastUpdate < MIN_UPDATE_INTERVAL)
    (h1000 : ¬ now - r.lastUpdate > 1000)
    (hc : r.updateCount ≥ MAX_UPDATE_RATE) :
    rateAdmit (some r) now = (false, r) := by
  simp [rateAdmit, h50, h1000, hc]

theorem rateAdmit_accept_incr {r : RateState} {now : ℤ}
    (h50 : ¬ now - r.lastUpdate < MIN_UPDATE_INTERVAL)
    (h1000 : ¬ now - r.lastUpdate > 1000)
    (hc : ¬ r.updateCount ≥ MAX_UPDATE_RATE) :
    rateAdmit (some r) now = (true, ⟨now, r.updateCount + 1⟩) := by
  simp [rateAdmit, h50, h1000, hc]

theorem windowCount_nil (r : RateState) (T : ℤ) : windowCount r [] T = 0 := by
  simp [windowCount, acceptedLog]

theorem windowCount_cons (r : RateState) (t : ℤ) (ts : List ℤ) (T : ℤ) :
    windowCount r (t :: ts) T =
      (if (rateAdmit (some r) t).1 then
        (if T ≤ t ∧ t ≤ T + 1000 then 1 else 0) +
          windowCount (rateAdmit (some r) t).2 ts T
      else windowCount (rateAdmit (some r) t).2 ts T) := by
  simp only [windowCount, acceptedLog]
  by_cases hacc : (rateAdmit (some r) t).1
  · simp only [hacc, if_true, List.filter_cons]
    by_cases hmem : T ≤ t ∧ t ≤ T + 1000
    · simp [hmem, hmem.1, hmem.2, Nat.add_comm]
    · rw [Decidable.not_and_iff_or_not] at hmem
      rcases hmem with hmem | hmem <;> simp [hmem]
  · simp [hacc]

theorem windowCount_le_windowBound (ts : List ℤ) :
    ∀ (r : RateState) (T : ℤ), windowCount r ts T ≤ windowBound r T := by
  induction ts with
  | nil =>
    intro r T
    rw [windowCount_nil]
    exact Nat.zero_le _
  | cons t ts ih =>
    intro r T
    rw [windowCount_cons]
    by_cases h50 : t - r.lastUpdate < MIN_UPDATE_INTERVAL
    · rw [rateAdmit_deny_interval h50]
      simpa using ih r T
    · by_cases h1000 : t - r.lastUpdate > 1000
      · rw [rateAdmit_accept_reset h50 h1000]
        have hb := ih ⟨t, 1⟩ T
        by_cases hmem : T ≤ t ∧ t ≤ T + 1000
        · simp only [if_true, hmem]
          unfold windowBound MAX_UPDATE_RATE at hb ⊢
          simp only [RateState.mk.injEq] at hb ⊢
          unfold MIN_UPDATE_INTERVAL at h50
          split_ifs at hb ⊢ <;> simp_all <;> omega
        · simp only [hmem, if_false]
          unfold windowBound MAX_UPDATE_RATE at hb ⊢
          unfold MIN_UPDATE_INTERVAL at h50
          split_ifs at hb ⊢ <;> simp_all <;> omega
      · by_cases hc : r.updateCount ≥ MAX_UPDATE_RATE
        · rw [rateAdmit_deny_count h50 h1000 hc]
          simpa using ih r T
        · rw [rateAdmit_accept_incr h50 h1000 hc]
          have hb := ih ⟨t, r.updateCount + 1⟩ T
          by_cases hmem : T ≤ t ∧ t ≤ T + 1000
          · simp only [if_true, hmem]
            unfold windowBound MAX_UPDATE_RATE at hb hc ⊢
            unfold MIN_UPDATE_INTERVAL at h50
            split_ifs at hb ⊢ <;> simp_all <;> omega
          · simp only [hmem, if_false]
            unfold windowBound MAX_UPDATE_RATE at hb hc ⊢
            unfold MIN_UPDATE_INTERVAL at h50
            split_ifs at hb ⊢ <;> simp_all <;> omega

/-- C3 (amended): for every starting rate entry (in particular the
`{lastUpdate: joinTime, updateCount: 0}` entry a join installs) and every
sequence of submission timestamps, the number of accepted updates whose
timestamps fall in any closed rolling window `[T, T + 1000]` never exceeds
`MAX_UPDATE_RATE` (20).  The "at most floor(1000/50) = 20 of N moves
submitted faster than 50 ms apart" conjunct of the original claim is false:
see the counterexample. -/
theorem C3_rolling_window_bound (r : RateState) (ts : List ℤ) (T : ℤ) :
    windowCount r ts T ≤ MAX_UPDATE_RATE := by
  refine le_trans (windowCount_le_windowBound ts r T) ?_
  unfold windowBound
  split_ifs <;> omega

/-- C3 counterexample: 61 `playerMove` submissions, each 49 ms after the
previous one (all faster than `MIN_UPDATE_INTERVAL` apart), sent to the rate
entry a join at time 0 installs, get 21 of them accepted — more than the
`floor(1000/50) = 20` the claim allows — because a run of 21 consecutive
denials opens a gap of more than 1000 ms since the last accepted update,
which resets the counter. -/
theorem C3_counterexample :
    gapsBelow MIN_UPDATE_INTERVAL fastTimes = true ∧
    fastTimes.length = 61 ∧
    lookupKey 1 (handleJoin initState 1 ⟨some "Bob", some 0⟩ 0 0 0 0).1.playerUpdateRate
      = some ⟨0, 0⟩ ∧
    MAX_UPDATE_RATE < (acceptedLog ⟨0, 0⟩ fastTimes).length := by
  refine ⟨by decide, by decide, ?_, by decide⟩
  have hn : nicknameInvalid (some "Bob") = false := by decide
  have hc : characterTypeInvalid (some 0) = false := by decide
  simp [handleJoin, hn, hc, initState, setKey, lookupKey]

/-! ## Refinement of the spec's rate limiter (claim C4) -/

/-- C4 counterexample: starting from a fresh entry at time 0, the moves at
`50, 100, ..., 1000, 1050` are decided differently by the code and by the
reference algorithm of spec section 4.3: the code denies the move at 1050
(20 accepted updates and no 1000 ms silence, so its counter never reset),
while the reference resets its window at 1050 (`1050 - windowStart > 1000`)
and accepts. -/
theorem C4_counterexample :
    codeDecisions ⟨0, 0⟩ evenTimes ≠ specDecisions ⟨0, 0, 0⟩ evenTimes ∧
    (codeDecisions ⟨0, 0⟩ evenTimes).getLast? = some false ∧
    (specDecisions ⟨0, 0, 0⟩ evenTimes).getLast? = some true := by
  refine ⟨by decide, by decide, by decide⟩

/-- C4 (amended): the code's admission decision coincides with the spec's
reference algorithm amended so that the counting window is re-anchored at
every accepted update — `windowStart` is merged with `lastAcceptedAt`, so
the counter resets exactly when more than 1000 ms passed since the last
accepted update.  Under the embedding `toSpecState` (which realizes that
merge) decisions and successor states agree for every entry state and every
timestamp. -/
theorem C4_merged_refinement (r : RateState) (now : ℤ) :
    specAdmitMerged (toSpecState r) now =
      ((rateAdmit (some r) now).1, toSpecState (rateAdmit (some r) now).2) := by
  simp only [specAdmitMerged, rateAdmit, toSpecState, MAX_UPDATE_RATE,
    MIN_UPDATE_INTERVAL]
  split_ifs <;> simp_all

/-! ## Geometry of the bounds clamp -/

theorem sqrt_planar_le_iff {x z : ℝ} :
    Real.sqrt (x ^ 2 + z ^ 2) ≤ MAX_POSITION_DISTANCE ↔ x ^ 2 + z ^ 2 ≤ 150 ^ 2 := by
  unfold MAX_POSITION_DISTANCE
  exact Real.sqrt_le_left (by norm_num)

theorem clampToBounds_eq_self {x z : ℝ} (h : x ^ 2 + z ^ 2 ≤ 150 ^ 2) :
    clampToBounds x z = (x, z) := by
  have hle : ¬ Real.sqrt (x ^ 2 + z ^ 2) > MAX_POSITION_DISTANCE :=
    not_lt.mpr (sqrt_planar_le_iff.mpr h)
  simp [clampToBounds, hle]

theorem clampToBounds_sq_le (x z : ℝ) :
    (clampToBounds x z).1 ^ 2 + (clampToBounds x z).2 ^ 2 ≤ 150 ^ 2 := by
  by_cases h : Real.sqrt (x ^ 2 + z ^ 2) > MAX_POSITION_DISTANCE
  · simp only [clampToBounds, if_pos h]
    have hsc := Real.sin_sq_add_cos_sq (atan2 z x)
    unfold MAX_POSITION_DISTANCE
    nlinarith [hsc]
  · simp only [clampToBounds, if_neg h]
    exact sqrt_planar_le_iff.mp (not_lt.mp h)

theorem velocityGate_cases (oldPos : Vec3) (x y z : ℝ) (td : ℤ) :
    velocityGate oldPos x y z td = ⟨oldPos.x, oldPos.y, oldPos.z⟩ ∨
    velocityGate oldPos x y z td = ⟨x, y, z⟩ := by
  simp only [velocityGate]
  split_ifs
  · exact Or.inl rfl
  · exact Or.inr rfl
  · exact Or.inr rfl
  · exact Or.inr rfl

/-! ## Step preservation of the position-bounds invariant (claim C2) -/

theorem handleJoin_inBounds {st : ServerState} (sid : ℕ) (d : JoinData) (now : ℤ)
    (angle : ℝ) {dist : ℝ} (spawnRy : ℝ) (hd0 : 0 ≤ dist) (hd1 : dist < 40)
    (h : InBounds st) : InBounds (handleJoin st sid d now angle dist spawnRy).1 := by
  unfold handleJoin
  split_ifs with h1 h2
  · exact h
  · exact h
  · intro sid' p hp
    simp only at hp
    rw [lookupKey_setKey] at hp
    by_cases hs : sid = sid'
    · rw [if_pos hs, Option.some.injEq] at hp
      subst hp
      simp only
      rw [sqrt_planar_le_iff]
      have key : (Real.cos angle * dist) ^ 2 + (Real.sin angle * dist) ^ 2 = dist ^ 2 := by
        have hsc := Real.sin_sq_add_cos_sq angle
        calc (Real.cos angle * dist) ^ 2 + (Real.sin angle * dist) ^ 2
            = (Real.sin angle ^ 2 + Real.cos angle ^ 2) * dist ^ 2 := by ring
          _ = dist ^ 2 := by rw [hsc]; ring
      rw [key]
      nlinarith [hd0, hd1]
    · rw [if_neg hs] at hp
      exact h sid' p hp

theorem handleMove_inBounds {st : ServerState} (sid : ℕ) (data : Option MoveData)
    (now : ℤ) (h : InBounds st) : InBounds (handleMove st sid data now).1 := by
  cases data with
  | none => exact h
  | some d =>
    simp only [handleMove]
    by_cases hdec : (rateAdmit (lookupKey sid st.playerUpdateRate) now).1 = false
    · rw [if_pos hdec]
      exact fun sid' p hp => h sid' p hp
    · rw [if_neg hdec]
      cases hpl : lookupKey sid st.players with
      | none => exact fun sid' p hp => h sid' p hp
      | some pl =>
        obtain ⟨td, hvm⟩ : ∃ td, (validatedMove st sid d now).1 =
            velocityGate pl.position (clampToBounds (validateX d) (validateZ d)).1
              (validateY d) (clampToBounds (validateX d) (validateZ d)).2 td := by
          cases hrl : lookupKey sid st.playerUpdateRate with
          | some r0 =>
            exact ⟨now - jsOrInt (rateAdmit (some r0) now).2.lastUpdate
              (now - MIN_UPDATE_INTERVAL), by simp only [validatedMove, hpl, hrl]⟩
          | none =>
            exact ⟨now - (now - MIN_UPDATE_INTERVAL),
              by simp only [validatedMove, hpl, hrl]⟩
        have hnew : Real.sqrt ((validatedMove st sid d now).1.x ^ 2 +
            (validatedMove st sid d now).1.z ^ 2) ≤ MAX_POSITION_DISTANCE := by
          rcases velocityGate_cases pl.position
              (clampToBounds (validateX d) (validateZ d)).1 (validateY d)
              (clampToBounds (validateX d) (validateZ d)).2 td with hcase | hcase
          · rw [hvm, hcase]
            exact h sid pl hpl
          · rw [hvm, hcase]
            rw [sqrt_planar_le_iff]
            exact clampToBounds_sq_le _ _
        intro sid' p hp
        have hp' : lookupKey sid' (setKey sid
            { pl with position := (validatedMove st sid d now).1,
                      rotation := ⟨0, (validatedMove st sid d now).2, 0⟩,
                      lastUpdate := now } st.players) = some p := by
          revert hp
          dsimp only
          split_ifs <;> exact id
        rw [lookupKey_setKey] at hp'
        by_cases hs : sid = sid'
        · rw [if_pos hs, Option.some.injEq] at hp'
          subst hp'
          exact hnew
        · rw [if_neg hs] at hp'
          exact h sid' p hp'

theorem handleDisconnect_inBounds {st : ServerState} (sid : ℕ)
    (h : InBounds st) : InBounds (handleDisconnect st sid).1 := by
  unfold handleDisconnect
  cases hpl : lookupKey sid st.players with
  | none => exact h
  | some pl =>
    intro sid' p hp
    simp only at hp
    rw [lookupKey_delKey] at hp
    by_cases hs : sid = sid'
    · rw [if_pos hs] at hp
      exact absurd hp (by simp)
    · rw [if_neg hs] at hp
      exact h sid' p hp

theorem evictLoop_players_subset :
    ∀ (ids : List ℕ) (st : ServerState) (evs : List Emit) (k : ℕ) (p : Player),
      lookupKey k (evictLoop (st, evs) ids).1.players = some p →
      lookupKey k st.players = some p := by
  intro ids
  induction ids with
  | nil => intro st evs k p hp; exact hp
  | cons pid rest ih =>
    intro st evs k p hp
    rw [evictLoop] at hp
    cases hpl : lookupKey pid st.players with
    | none =>
      rw [hpl] at hp
      exact ih _ _ _ _ hp
    | some q =>
      rw [hpl] at hp
      have := ih _ _ _ _ hp
      rw [lookupKey_delKey] at this
      by_cases hs : pid = k
      · rw [if_pos hs] at this
        exact absurd this (by simp)
      · rw [if_neg hs] at this
        exact this

theorem evictLoop_rate_subset :
    ∀ (ids : List ℕ) (st : ServerState) (evs : List Emit) (k : ℕ) (r : RateState),
      lookupKey k (evictLoop (st, evs) ids).1.playerUpdateRate = some r →
      lookupKey k st.playerUpdateRate = some r := by
  intro ids
  induction ids with
  | nil => intro st evs k r hr; exact hr
  | cons pid rest ih =>
    intro st evs k r hr
    rw [evictLoop] at hr
    cases hpl : lookupKey pid st.players with
    | none =>
      rw [hpl] at hr
      exact ih _ _ _ _ hr
    | some q =>
      rw [hpl] at hr
      have := ih _ _ _ _ hr
      rw [lookupKey_delKey] at this
      by_cases hs : pid = k
      · rw [if_pos hs] at this
        exact absurd this (by simp)
      · rw [if_neg hs] at this
        exact this

theorem heartbeatSweep_inBounds {st : ServerState} (now : ℤ)
    (h : InBounds st) : InBounds (heartbeatSweep st now).1 := by
  intro sid p hp
  exact h sid p (evictLoop_players_subset _ _ _ _ _ hp)

theorem step_inBounds {st : ServerState} {e : ServerEvent} (hok : EventOK e)
    (h : InBounds st) : InBounds (stepState st e) := by
  cases e with
  | join sid d now angle dist spawnRy =>
    exact handleJoin_inBounds sid d now angle spawnRy hok.1 hok.2 h
  | move sid data now => exact handleMove_inBounds sid data now h
  | disconnect sid => exact handleDisconnect_inBounds sid h
  | sweep now => exact heartbeatSweep_inBounds now h

theorem run_preserves_ok {P : ServerState → Prop}
    (hstep : ∀ st e, EventOK e → P st → P (stepState st e)) :
    ∀ (evs : List ServerEvent) (st : ServerState),
      (∀ e ∈ evs, EventOK e) → P st → P (run st evs) := by
  intro evs
  induction evs with
  | nil => intro st _ h; exact h
  | cons e rest ih =>
    intro st hok h
    rw [run]
    exact ih _ (fun e' he' => hok e' (List.mem_cons_of_mem _ he'))
      (hstep st e (hok e (List.mem_cons_self _ _)) h)

theorem run_preserves {P : ServerState → Prop}
    (hstep : ∀ st e, P st → P (stepState st e)) :
    ∀ (evs : List ServerEvent) (st : ServerState), P st → P (run st evs) := by
  intro evs
  induction evs with
  | nil => intro st h; exact h
  | cons e rest ih =>
    intro st h
    rw [run]
    exact ih _ (hstep st e h)

/-! ## Claim C2: the position-radius invariant -/

/-- C2: for every well-formed event sequence processed from startup, the
planar distance `sqrt(x² + z²)` of every stored position from the origin
never exceeds `MAX_POSITION_DISTANCE` (150): spawn positions lie within the
spawn radius, rejected updates retain the previous in-bounds position, and —
second conjunct — an out-of-bounds claim is clamped exactly onto the circle
of radius `MAX_POSITION_DISTANCE` along the same bearing (same `atan2`). -/
theorem C2_position_radius_invariant :
    (∀ evs : List ServerEvent, (∀ e ∈ evs, EventOK e) → InBounds (run initState evs)) ∧
    (∀ x z : ℝ, Real.sqrt (x ^ 2 + z ^ 2) > MAX_POSITION_DISTANCE →
      Real.sqrt ((clampToBounds x z).1 ^ 2 + (clampToBounds x z).2 ^ 2) =
        MAX_POSITION_DISTANCE ∧
      atan2 (clampToBounds x z).2 (clampToBounds x z).1 = atan2 z x) := by
  constructor
  · intro evs hok
    refine run_preserves_ok (fun st e he h => step_inBounds he h) evs initState hok ?_
    intro sid p hp
    simp [initState, lookupKey] at hp
  · intro x z h
    have hmem : atan2 z x ∈ Set.Ioc (-Real.pi) Real.pi := Complex.arg_mem_Ioc ⟨x, z⟩
    constructor
    · simp only [clampToBounds, if_pos h]
      have key : (Real.cos (atan2 z x) * MAX_POSITION_DISTANCE) ^ 2 +
          (Real.sin (atan2 z x) * MAX_POSITION_DISTANCE) ^ 2 =
          MAX_POSITION_DISTANCE ^ 2 := by
        have hsc := Real.sin_sq_add_cos_sq (atan2 z x)
        calc (Real.cos (atan2 z x) * MAX_POSITION_DISTANCE) ^ 2 +
            (Real.sin (atan2 z x) * MAX_POSITION_DISTANCE) ^ 2
            = (Real.sin (atan2 z x) ^ 2 + Real.cos (atan2 z x) ^ 2) *
              MAX_POSITION_DISTANCE ^ 2 := by ring
          _ = MAX_POSITION_DISTANCE ^ 2 := by rw [hsc]; ring
      rw [key, Real.sqrt_sq (by unfold MAX_POSITION_DISTANCE; norm_num)]
    · simp only [clampToBounds, if_pos h]
      show Complex.arg ⟨Real.cos (atan2 z x) * MAX_POSITION_DISTANCE,
        Real.sin (atan2 z x) * MAX_POSITION_DISTANCE⟩ = atan2 z x
      have hmk : (⟨Real.cos (atan2 z x) * MAX_POSITION_DISTANCE,
          Real.sin (atan2 z x) * MAX_POSITION_DISTANCE⟩ : ℂ) =
          ↑(150 : ℝ) * (Complex.cos ↑(atan2 z x) + Complex.sin ↑(atan2 z x) * Complex.I) := by
        rw [Complex.mk_eq_add_mul_I, ← Complex.ofReal_cos, ← Complex.ofReal_sin]
        unfold MAX_POSITION_DISTANCE
        push_cast
        ring
      rw [hmk, Complex.arg_mul_cos_add_sin_mul_I (by norm_num) hmem]

/-- Witness for C2: a concrete well-formed trace (a join followed by a
move), with the hypotheses discharged. -/
theorem C2_position_radius_invariant_witness :
    (∀ e ∈ ([ServerEvent.join 1 ⟨some "Bob", some 0⟩ 0 0 0 0,
        ServerEvent.move 1 (some dA) 100] : List ServerEvent), EventOK e) ∧
    InBounds (run initState [ServerEvent.join 1 ⟨some "Bob", some 0⟩ 0 0 0 0,
        ServerEvent.move 1 (some dA) 100]) := by
  have hok : ∀ e ∈ ([ServerEvent.join 1 ⟨some "Bob", some 0⟩ 0 0 0 0,
      ServerEvent.move 1 (some dA) 100] : List ServerEvent), EventOK e := by
    intro e he
    simp only [List.mem_cons, List.not_mem_nil, or_false] at he
    rcases he with rfl | rfl
    · exact ⟨le_refl 0, by norm_num⟩
    · trivial
  exact ⟨hok, C2_position_radius_invariant.1 _ hok⟩

/-! ## Claim C6: characterType validation -/

theorem characterTypeInvalid_false {ct : Option ℚ}
    (h : ¬ characterTypeInvalid ct = true) :
    ∃ q, ct = some q ∧ 0 ≤ q ∧ q ≤ 2 := by
  cases ct with
  | none => exact absurd rfl h
  | some q =>
    refine ⟨q, rfl, ?_, ?_⟩
    · by_contra hq
      exact h (by simp [characterTypeInvalid]; exact Or.inl (lt_of_not_le hq))
    · by_contra hq
      exact h (by simp [characterTypeInvalid]; exact Or.inr (lt_of_not_le hq))

theorem handleJoin_charBound {st : ServerState} (sid : ℕ) (d : JoinData) (now : ℤ)
    (angle dist spawnRy : ℝ)
    (h : ∀ sid' p, lookupKey sid' st.players = some p →
      0 ≤ p.characterType ∧ p.characterType ≤ 2) :
    ∀ sid' p, lookupKey sid' (handleJoin st sid d now angle dist spawnRy).1.players
      = some p → 0 ≤ p.characterType ∧ p.characterType ≤ 2 := by
  unfold handleJoin
  split_ifs with h1 h2
  · exact h
  · exact h
  · intro sid' p hp
    simp only at hp
    rw [lookupKey_setKey] at hp
    by_cases hs : sid = sid'
    · rw [if_pos hs, Option.some.injEq] at hp
      subst hp
      obtain ⟨q, hq, hq0, hq2⟩ := characterTypeInvalid_false h2
      simp only [hq, Option.getD_some]
      exact ⟨hq0, hq2⟩
    · rw [if_neg hs] at hp
      exact h sid' p hp

theorem handleMove_charBound {st : ServerState} (sid : ℕ) (data : Option MoveData)
    (now : ℤ)
    (h : ∀ sid' p, lookupKey sid' st.players = some p →
      0 ≤ p.characterType ∧ p.characterType ≤ 2) :
    ∀ sid' p, lookupKey sid' (handleMove st sid data now).1.players = some p →
      0 ≤ p.characterType ∧ p.characterType ≤ 2 := by
  cases data with
  | none => exact h
  | some d =>
    simp only [handleMove]
    by_cases hdec : (rateAdmit (lookupKey sid st.playerUpdateRate) now).1 = false
    · rw [if_pos hdec]
      exact fun sid' p hp => h sid' p hp
    · rw [if_neg hdec]
      cases hpl : lookupKey sid st.players with
      | none => exact fun sid' p hp => h sid' p hp
      | some pl =>
        intro sid' p hp
        have hp' : lookupKey sid' (setKey sid
            { pl with position := (validatedMove st sid (d : MoveData) now).1,
                      rotation := ⟨0, (validatedMove st sid d now).2, 0⟩,
                      lastUpdate := now } st.players) = some p := by
          revert hp
          dsimp only
          split_ifs <;> exact id
        rw [lookupKey_setKey] at hp'
        by_cases hs : sid = sid'
        · rw [if_pos hs, Option.some.injEq] at hp'
          subst hp'
          exact h sid pl hpl
        · rw [if_neg hs] at hp'
          exact h sid' p hp'

theorem handleDisconnect_charBound {st : ServerState} (sid : ℕ)
    (h : ∀ sid' p, lookupKey sid' st.players = some p →
      0 ≤ p.characterType ∧ p.characterType ≤ 2) :
    ∀ sid' p, lookupKey sid' (handleDisconnect st sid).1.players = some p →
      0 ≤ p.characterType ∧ p.characterType ≤ 2 := by
  unfold handleDisconnect
  cases hpl : lookupKey sid st.players with
  | none => exact h
  | some pl =>
    intro sid' p hp
    simp only at hp
    rw [lookupKey_delKey] at hp
    by_cases hs : sid = sid'
    · rw [if_pos hs] at hp
      exact absurd hp (by simp)
    · rw [if_neg hs] at hp
      exact h sid' p hp

/-- C6 (amended): every Player present in the registry at any reachable
state has a `characterType` in the closed interval `[0, 2]` — the code
checks only the bounds `characterType < 0 || characterType > 2`, so the
valid set is the whole interval, not just the integers `{0, 1, 2}` (see the
counterexample for a non-integer value the code admits). -/
theorem C6_characterType_bounds (evs : List ServerEvent) (sid : ℕ) (p : Player)
    (hp : lookupKey sid (run initState evs).players = some p) :
    0 ≤ p.characterType ∧ p.characterType ≤ 2 := by
  refine run_preserves (P := fun st => ∀ sid' p',
      lookupKey sid' st.players = some p' →
      0 ≤ p'.characterType ∧ p'.characterType ≤ 2)
    ?_ evs initState ?_ sid p hp
  · intro st e hP
    cases e with
    | join sid' d now angle dist spawnRy =>
      exact handleJoin_charBound sid' d now angle dist spawnRy hP
    | move sid' data now => exact handleMove_charBound sid' data now hP
    | disconnect sid' => exact handleDisconnect_charBound sid' hP
    | sweep now =>
      intro sid' p' hp'
      exact hP sid' p' (evictLoop_players_subset _ _ _ _ _ hp')
  · intro sid' p' hp'
    simp [initState, lookupKey] at hp'

theorem joinAnaEval : run initState [ServerEvent.join 2 ⟨some "Ana", some 1⟩ 5 0 0 0] =
    ServerState.mk [(2, pJ)] [(2, ⟨5, 0⟩)] := by
  have hn : nicknameInvalid (some "Ana") = false := by decide
  have hc : characterTypeInvalid (some 1) = false := by decide
  have hnick : jsTake (jsTrim "Ana") 12 = "Ana" := by decide
  simp [run, stepState, step, handleJoin, hn, hc, hnick, initState, setKey, pJ]

/-- Witness for C6: a concrete joined player, with the lookup hypothesis
discharged. -/
theorem C6_characterType_bounds_witness :
    lookupKey 2 (run initState [ServerEvent.join 2 ⟨some "Ana", some 1⟩ 5 0 0 0]).players
      = some pJ ∧ 0 ≤ pJ.characterType ∧ pJ.characterType ≤ 2 := by
  have hl : lookupKey 2
      (run initState [ServerEvent.join 2 ⟨some "Ana", some 1⟩ 5 0 0 0]).players
      = some pJ := by
    rw [joinAnaEval]
    simp [lookupKey]
  exact ⟨hl, C6_characterType_bounds _ _ _ hl⟩

/-- C6 counterexample: a join with `characterType = 3/2` passes the
validation (`3/2` is neither undefined, below 0 nor above 2) and a Player
with `characterType = 3/2 ∉ {0, 1, 2}` is stored, refuting the claim that
every join outside the enum set `{0, 1, 2}` is rejected. -/
theorem C6_counterexample :
    Option.map Player.characterType
      (lookupKey 1 (handleJoin initState 1 ⟨some "Bob", some (3/2)⟩ 0 0 0 0).1.players)
      = some (3/2) ∧ (3/2 : ℚ) ∉ ({0, 1, 2} : Set ℚ) := by
  constructor
  · have hn : nicknameInvalid (some "Bob") = false := by decide
    have hc : characterTypeInvalid (some (3/2)) = false := by
      norm_num [characterTypeInvalid]
    simp [handleJoin, hn, hc, initState, setKey, lookupKey]
  · intro hmem
    rcases hmem with h | h | h <;> norm_num at h

/-! ## Claim C8: the Player / RateState pairing -/

theorem evictLoop_playerHasRate :
    ∀ (ids : List ℕ) (st : ServerState) (evs : List Emit),
      PlayerHasRate st → PlayerHasRate (evictLoop (st, evs) ids).1 := by
  intro ids
  induction ids with
  | nil => intro st evs h; exact h
  | cons pid rest ih =>
    intro st evs h
    rw [evictLoop]
    cases hpl : lookupKey pid st.players with
    | none => exact ih _ _ h
    | some q =>
      refine ih _ _ ?_
      intro sid hsome
      rw [lookupKey_delKey] at hsome ⊢
      by_cases hs : pid = sid
      · rw [if_pos hs] at hsome
        simp at hsome
      · rw [if_neg hs] at hsome ⊢
        exact h sid hsome

theorem step_playerHasRate {st : ServerState} {e : ServerEvent}
    (h : PlayerHasRate st) : PlayerHasRate (stepState st e) := by
  cases e with
  | join sid d now angle dist spawnRy =>
    show PlayerHasRate (handleJoin st sid d now angle dist spawnRy).1
    unfold handleJoin
    split_ifs with h1 h2
    · exact h
    · exact h
    · intro sid' hsome
      simp only at hsome ⊢
      rw [lookupKey_setKey] at hsome ⊢
      by_cases hs : sid = sid'
      · rw [if_pos hs]
        simp
      · rw [if_neg hs] at hsome ⊢
        exact h sid' hsome
  | move sid data now =>
    show PlayerHasRate (handleMove st sid data now).1
    cases data with
    | none => exact h
    | some d =>
      simp only [handleMove]
      by_cases hdec : (rateAdmit (lookupKey sid st.playerUpdateRate) now).1 = false
      · rw [if_pos hdec]
        intro sid' hsome
        rw [lookupKey_setKey]
        by_cases hs : sid = sid'
        · rw [if_pos hs]; simp
        · rw [if_neg hs]; exact h sid' hsome
      · rw [if_neg hdec]
        cases hpl : lookupKey sid st.players with
        | none =>
          intro sid' hsome
          rw [lookupKey_setKey]
          by_cases hs : sid = sid'
          · rw [if_pos hs]; simp
          · rw [if_neg hs]; exact h sid' hsome
        | some pl =>
          intro sid' hsome
          have hsome' : (lookupKey sid' (setKey sid
              { pl with position := (validatedMove st sid d now).1,
                        rotation := ⟨0, (validatedMove st sid d now).2, 0⟩,
                        lastUpdate := now } st.players)).isSome := by
            revert hsome
            dsimp only
            split_ifs <;> exact id
          have hrate : (lookupKey sid'
              ((⟨st.players, setKey sid (rateAdmit (lookupKey sid st.playerUpdateRate) now).2
                  st.playerUpdateRate⟩ : ServerState)).playerUpdateRate).isSome := by
            simp only
            rw [lookupKey_setKey]
            by_cases hs : sid = sid'
            · rw [if_pos hs]; simp
            · rw [if_neg hs]
              rw [lookupKey_setKey, if_neg hs] at hsome'
              exact h sid' hsome'
          revert hrate
          dsimp only
          split_ifs <;> exact id
  | disconnect sid =>
    show PlayerHasRate (handleDisconnect st sid).1
    unfold handleDisconnect
    cases hpl : lookupKey sid st.players with
    | none => exact h
    | some pl =>
      intro sid' hsome
      simp only at hsome ⊢
      rw [lookupKey_delKey] at hsome ⊢
      by_cases hs : sid = sid'
      · rw [if_pos hs] at hsome
        simp at hsome
      · rw [if_neg hs] at hsome ⊢
        exact h sid' hsome
  | sweep now => exact evictLoop_playerHasRate _ _ _ h

/-- C8 (amended): at every reachable state, a connection with a Player also
has a rate-limiting entry (the join installs both, and both removal paths
delete both) — but the converse of the original claim is false: a
`playerMove` from a never-joined connection creates a rate entry with no
Player, and that orphan entry survives even a disconnect (see the
counterexample). -/
theorem C8_player_implies_rate (evs : List ServerEvent) (sid : ℕ)
    (h : (lookupKey sid (run initState evs).players).isSome) :
    (lookupKey sid (run initState evs).playerUpdateRate).isSome := by
  refine run_preserves (P := PlayerHasRate)
    (fun st e hP => step_playerHasRate hP) evs initState ?_ sid h
  intro sid' hsome
  simp [initState, lookupKey] at hsome

/-- Witness for C8: a concrete joined connection, with the isSome
hypothesis discharged. -/
theorem C8_player_implies_rate_witness :
    (lookupKey 2 (run initState
      [ServerEvent.join 2 ⟨some "Ana", some 1⟩ 5 0 0 0]).players).isSome = true ∧
    (lookupKey 2 (run initState
      [ServerEvent.join 2 ⟨some "Ana", some 1⟩ 5 0 0 0]).playerUpdateRate).isSome
      = true := by
  have hsome : (lookupKey 2 (run initState
      [ServerEvent.join 2 ⟨some "Ana", some 1⟩ 5 0 0 0]).players).isSome = true := by
    rw [joinAnaEval]
    simp [lookupKey]
  exact ⟨hsome, C8_player_implies_rate _ 2 hsome⟩

/-- C8 counterexample: a `playerMove` sent on a never-joined connection
creates a rate-limiting entry while no Player exists, and the orphan entry
survives a subsequent disconnect — refuting "never exists without its
Player" and "destroyed atomically with the Player on removal". -/
theorem C8_counterexample :
    lookupKey 1 (run initState [ServerEvent.move 1 (some dA) 100]).players = none ∧
    lookupKey 1 (run initState [ServerEvent.move 1 (some dA) 100]).playerUpdateRate
      = some ⟨100, 1⟩ ∧
    lookupKey 1 (run initState [ServerEvent.move 1 (some dA) 100,
      ServerEvent.disconnect 1]).players = none ∧
    lookupKey 1 (run initState [ServerEvent.move 1 (some dA) 100,
      ServerEvent.disconnect 1]).playerUpdateRate = some ⟨100, 1⟩ := by
  have h1 : handleMove initState 1 (some dA) 100 =
      (ServerState.mk [] [(1, ⟨100, 1⟩)], []) := by
    simp [handleMove, rateAdmit, initState, lookupKey, setKey]
  have h2 : run initState [ServerEvent.move 1 (some dA) 100] =
      ServerState.mk [] [(1, ⟨100, 1⟩)] := by
    simp [run, stepState, step, h1]
  have h3 : run initState [ServerEvent.move 1 (some dA) 100, ServerEvent.disconnect 1] =
      ServerState.mk [] [(1, ⟨100, 1⟩)] := by
    simp [run, stepState, step, h1, handleDisconnect, lookupKey]
  rw [h2, h3]
  refine ⟨by simp [lookupKey], by simp [lookupKey], by simp [lookupKey],
    by simp [lookupKey]⟩

/-! ## Claim C9: heartbeat eviction -/

theorem lookupKey_ne_none_of_mem {α : Type} {k : ℕ} {v : α} {l : List (ℕ × α)}
    (h : (k, v) ∈ l) : lookupKey k l ≠ none := by
  induction l with
  | nil => simp at h
  | cons hd tl ih =>
    obtain ⟨k0, v0⟩ := hd
    by_cases hk : k0 = k
    · rw [lookupKey, if_pos hk]
      simp
    · rw [lookupKey, if_neg hk]
      rcases List.mem_cons.mp h with h | h
    
      · exact absurd (congrArg Prod.fst h).symm hk
      · exact ih h

theorem mem_inactiveIds {st : ServerState} {now : ℤ} {sid : ℕ} {p : Player}
    (hp : lookupKey sid st.players = some p)
    (hlate : now - p.lastUpdate > HEARTBEAT_TIMEOUT) :
    sid ∈ inactiveIds st now := by
  have hmem : (sid, p) ∈ st.players := lookupKey_mem hp
  have hfil : (sid, p) ∈ st.players.filter
      (fun kv => decide (now - kv.2.lastUpdate > HEARTBEAT_TIMEOUT)) :=
    List.mem_filter.mpr ⟨hmem, by simpa using hlate⟩
  exact List.mem_map_of_mem Prod.fst hfil

theorem inactiveIds_lookup_ne_none {st : ServerState} {now : ℤ} {sid : ℕ}
    (h : sid ∈ inactiveIds st now) : lookupKey sid st.players ≠ none := by
  obtain ⟨⟨k, v⟩, hkv, hfst⟩ := List.mem_map.mp h
  obtain ⟨hkv', _⟩ := List.mem_filter.mp hkv
  subst hfst
  exact lookupKey_ne_none_of_mem hkv'

theorem evictLoop_evs_mem :
    ∀ (ids : List ℕ) (st : ServerState) (evs : List Emit) (e : Emit),
      e ∈ evs → e ∈ (evictLoop (st, evs) ids).2 := by
  intro ids
  induction ids with
  | nil => intro st evs e he; exact he
  | cons pid rest ih =>
    intro st evs e he
    rw [evictLoop]
    cases hpl : lookupKey pid st.players with
    | none => exact ih _ _ _ he
    | some q => exact ih _ _ _ (List.mem_append_left _ he)

theorem evictLoop_removes :
    ∀ (ids : List ℕ) (st : ServerState) (evs : List Emit) (sid : ℕ),
      sid ∈ ids → lookupKey sid st.players ≠ none →
      lookupKey sid (evictLoop (st, evs) ids).1.players = none ∧
      lookupKey sid (evictLoop (st, evs) ids).1.playerUpdateRate = none ∧
      Emit.toAll (.playerDisconnected sid) ∈ (evictLoop (st, evs) ids).2 := by
  intro ids
  induction ids with
  | nil => intro st evs sid hmem; simp at hmem
  | cons pid rest ih =>
    intro st evs sid hmem hne
    by_cases hps : pid = sid
    · subst hps
      cases hpl : lookupKey pid st.players with
      | none => exact absurd hpl hne
      | some q =>
        rw [evictLoop, hpl]
        refine ⟨?_, ?_, ?_⟩
        · cases hfin : lookupKey pid (evictLoop
              (⟨delKey pid st.players, delKey pid st.playerUpdateRate⟩,
                evs ++ [Emit.toAll (.playerDisconnected pid)]) rest).1.players with
          | none => rfl
          | some p' =>
            have := evictLoop_players_subset rest _ _ _ _ hfin
            rw [lookupKey_delKey, if_pos rfl] at this
            exact absurd this (by simp)
        · cases hfin : lookupKey pid (evictLoop
              (⟨delKey pid st.players, delKey pid st.playerUpdateRate⟩,
                evs ++ [Emit.toAll (.playerDisconnected pid)]) rest).1.playerUpdateRate with
          | none => rfl
          | some r' =>
            have := evictLoop_rate_subset rest _ _ _ _ hfin
            rw [lookupKey_delKey, if_pos rfl] at this
            exact absurd this (by simp)
        · exact evictLoop_evs_mem rest _ _ _ (by simp)
    · have hmem' : sid ∈ rest := by
        rcases List.mem_cons.mp hmem with h | h
        · exact absurd h.symm hps
        · exact h
      cases hpl : lookupKey pid st.players with
      | none =>
        rw [evictLoop, hpl]
        exact ih _ _ _ hmem' hne
      | some q =>
        rw [evictLoop, hpl]
        refine ih _ _ _ hmem' ?_
        rw [lookupKey_delKey, if_neg hps]
        exact hne

theorem evictLoop_not_mem :
    ∀ (ids : List ℕ) (st : ServerState) (evs : List Emit) (sid : ℕ),
      sid ∉ ids →
      lookupKey sid (evictLoop (st, evs) ids).1.players = lookupKey sid st.players ∧
      lookupKey sid (evictLoop (st, evs) ids).1.playerUpdateRate
        = lookupKey sid st.playerUpdateRate ∧
      (Emit.toAll (.playerDisconnected sid) ∈ (evictLoop (st, evs) ids).2 ↔
        Emit.toAll (.playerDisconnected sid) ∈ evs) := by
  intro ids
  induction ids with
  | nil => intro st evs sid _; exact ⟨rfl, rfl, Iff.rfl⟩
  | cons pid rest ih =>
    intro st evs sid hnm
    have hps : pid ≠ sid := fun h => hnm (h ▸ List.mem_cons_self _ _)
    have hrest : sid ∉ rest := fun h => hnm (List.mem_cons_of_mem _ h)
    cases hpl : lookupKey pid st.players with
    | none =>
      rw [evictLoop, hpl]
      exact ih _ _ _ hrest
    | some q =>
      rw [evictLoop, hpl]
      obtain ⟨h1, h2, h3⟩ := ih (⟨delKey pid st.players, delKey pid st.playerUpdateRate⟩ :
        ServerState) (evs ++ [Emit.toAll (.playerDisconnected pid)]) sid hrest
      refine ⟨?_, ?_, ?_⟩
      · rw [h1]
        simp only
        rw [lookupKey_delKey, if_neg hps]
      · rw [h2]
        simp only
        rw [lookupKey_delKey, if_neg hps]
      · rw [h3]
        simp [hps.symm]

/-- C9: a joined player whose last accepted update is more than
`HEARTBEAT_TIMEOUT` (10000 ms) old at sweep time is removed from both the
registry and the rate-limiting table and a `playerDisconnected` carrying its
id is emitted via `io.emit`, i.e. delivered to every connection and without
any explicit close; and — second conjunct — sweeping an id with no Player is
a no-op for that id: its tables are untouched and no `playerDisconnected`
for it is emitted.  (The sweep itself runs on a 5-second interval timer;
here each timer firing is one `heartbeatSweep` evaluation.) -/
theorem C9_heartbeat_eviction :
    (∀ (st : ServerState) (now : ℤ) (sid : ℕ) (p : Player),
      lookupKey sid st.players = some p →
      now - p.lastUpdate > HEARTBEAT_TIMEOUT →
      lookupKey sid (heartbeatSweep st now).1.players = none ∧
      lookupKey sid (heartbeatSweep st now).1.playerUpdateRate = none ∧
      Emit.toAll (.playerDisconnected sid) ∈ (heartbeatSweep st now).2 ∧
      (∀ conn, deliveredTo (Emit.toAll (.playerDisconnected sid)) conn = true)) ∧
    (∀ (st : ServerState) (now : ℤ) (sid : ℕ),
      lookupKey sid st.players = none →
      lookupKey sid (heartbeatSweep st now).1.players = none ∧
      lookupKey sid (heartbeatSweep st now).1.playerUpdateRate
        = lookupKey sid st.playerUpdateRate ∧
      Emit.toAll (.playerDisconnected sid) ∉ (heartbeatSweep st now).2) := by
  constructor
  · intro st now sid p hp hlate
    have hmem : sid ∈ inactiveIds st now := mem_inactiveIds hp hlate
    have hne : lookupKey sid st.players ≠ none := by
      rw [hp]; simp
    obtain ⟨h1, h2, h3⟩ := evictLoop_removes (inactiveIds st now) st [] sid hmem hne
    exact ⟨h1, h2, h3, fun conn => rfl⟩
  · intro st now sid hp
    have hnm : sid ∉ inactiveIds st now := fun hmem =>
      inactiveIds_lookup_ne_none hmem hp
    obtain ⟨h1, h2, h3⟩ := evictLoop_not_mem (inactiveIds st now) st [] sid hnm
    refine ⟨?_, h2, ?_⟩
    · show lookupKey sid (evictLoop (st, []) (inactiveIds st now)).1.players = none
      rw [h1]
      exact hp
    · show Emit.toAll (.playerDisconnected sid) ∉ (evictLoop (st, []) (inactiveIds st now)).2
      rw [h3]
      simp

/-- Witness for C9: the concrete state `stH` swept at time 10001, with both
hypotheses discharged. -/
theorem C9_heartbeat_eviction_witness :
    lookupKey 1 stH.players = some pH ∧
    (10001 : ℤ) - pH.lastUpdate > HEARTBEAT_TIMEOUT ∧
    lookupKey 1 (heartbeatSweep stH 10001).1.players = none ∧
    lookupKey 1 (heartbeatSweep stH 10001).1.playerUpdateRate = none ∧
    Emit.toAll (.playerDisconnected 1) ∈ (heartbeatSweep stH 10001).2 := by
  have h1 : lookupKey 1 stH.players = some pH := by
    simp [stH, lookupKey]
  have h2 : (10001 : ℤ) - pH.lastUpdate > HEARTBEAT_TIMEOUT := by
    simp [pH, HEARTBEAT_TIMEOUT]
  obtain ⟨ha, hb, hc, _⟩ := C9_heartbeat_eviction.1 stH 10001 1 pH h1 h2
  exact ⟨h1, h2, ha, hb, hc⟩

/-! ## Concrete evaluation of an accepted significant move -/

theorem rateAdmit_stA : rateAdmit (some (⟨1000, 0⟩ : RateState)) 1100 =
    (true, ⟨1100, 1⟩) := by decide

theorem moveEval : handleMove stA 1 (some dA) 1100 =
    (ServerState.mk [(1, pA')] [(1, ⟨1100, 1⟩)],
      [Emit.broadcastFrom 1 (.playerMoved 1 ⟨10, 1, 0⟩ ⟨0, 0, 0⟩)]) := by
  have hlp : lookupKey 1 stA.players = some pA := by
    simp [stA, lookupKey]
  have hlr : lookupKey 1 stA.playerUpdateRate = some ⟨1000, 0⟩ := by
    simp [stA, lookupKey]
  have hclamp : clampToBounds 10 0 = ((10 : ℝ), (0 : ℝ)) :=
    clampToBounds_eq_self (by norm_num)
  have hvm : validatedMove stA 1 dA 1100 = (⟨10, 1, 0⟩, 0) := by
    simp [validatedMove, hlp, hlr, rateAdmit_stA, hclamp, jsOrInt,
      validateX, validateY, validateZ, validateRy, dA, velocityGate]
  have hsig : POSITION_THRESHOLD < |(validatedMove stA 1 dA 1100).1.x - pA.position.x| := by
    rw [hvm]
    simp only [pA]
    rw [show |(10 : ℝ) - 0| = 10 by rw [sub_zero]; exact abs_of_nonneg (by norm_num)]
    unfold POSITION_THRESHOLD
    norm_num
  simp only [handleMove, hlp, hlr, rateAdmit_stA]
  rw [if_neg (by simp)]
  rw [if_pos (Or.inl hsig)]
  rw [hvm]
  simp [stA, setKey, pA, pA']

/-! ## Claim C1: the velocity/teleport check -/

/-- C1 (code bug): from stored position `(0, 1, 0)` with previous accepted
update at `t = 1000`, the move to `(10, 1, 0)` at `t = 1100` implies a speed
of `10 / 0.1s = 100 > MAX_VELOCITY` over a distance `10 < 20`, so by the
claim its positional part must be rejected — yet the code stores
`(10, 1, 0)`.  Line 156 (`playerUpdateRate[socket.id].lastUpdate = now`)
runs before the velocity block and `rateLimit` aliases that same object, so
`timeDelta = now - rateLimit.lastUpdate` is always `0` and the `timeDelta >
0` guard makes the whole check dead code. -/
theorem C1_velocity_check_dead :
    Option.map Player.position (lookupKey 1 (handleMove stA 1 (some dA) 1100).1.players)
      = some ⟨10, 1, 0⟩ ∧
    MAX_VELOCITY < Real.sqrt (((10 : ℝ) - pA.position.x) ^ 2 +
        ((1 : ℝ) - pA.position.y) ^ 2 + ((0 : ℝ) - pA.position.z) ^ 2) /
        (((1100 - 1000 : ℤ) : ℝ) / 1000) ∧
    Real.sqrt (((10 : ℝ) - pA.position.x) ^ 2 + ((1 : ℝ) - pA.position.y) ^ 2 +
        ((0 : ℝ) - pA.position.z) ^ 2) < 20 ∧
    pA.position ≠ (⟨10, 1, 0⟩ : Vec3) := by
  have hd : Real.sqrt (((10 : ℝ) - pA.position.x) ^ 2 + ((1 : ℝ) - pA.position.y) ^ 2 +
      ((0 : ℝ) - pA.position.z) ^ 2) = 10 := by
    simp only [pA]
    rw [show ((10 : ℝ) - 0) ^ 2 + ((1 : ℝ) - 1) ^ 2 + ((0 : ℝ) - 0) ^ 2 = 10 ^ 2 by norm_num]
    exact Real.sqrt_sq (by norm_num)
  refine ⟨?_, ?_, ?_, ?_⟩
  · rw [moveEval]
    simp [lookupKey, pA']
  · rw [hd]
    unfold MAX_VELOCITY
    norm_num
  · rw [hd]
    norm_num
  · simp only [pA]
    intro hcontra
    have := congrArg Vec3.x hcontra
    norm_num at this

/-! ## Claim C5: who receives playerMoved -/

/-- C5 counterexample: the concrete accepted significant move emits exactly
one `playerMoved`, addressed with `socket.broadcast.emit`, and that emission
is not delivered to the originating connection — refuting "delivered to all
connections including the originator". -/
theorem C5_counterexample :
    (handleMove stA 1 (some dA) 1100).2
      = [Emit.broadcastFrom 1 (.playerMoved 1 ⟨10, 1, 0⟩ ⟨0, 0, 0⟩)] ∧
    deliveredTo (Emit.broadcastFrom 1 (.playerMoved 1 ⟨10, 1, 0⟩ ⟨0, 0, 0⟩)) 1
      = false := by
  constructor
  · rw [moveEval]
  · rfl

/-- C5 (amended): every event the `playerMove` handler emits is a
`playerMoved` delta broadcast from the originator, delivered to every
connection except the originator and not to the originator itself. -/
theorem C5_playerMoved_excludes_sender (st : ServerState) (sid : ℕ)
    (data : Option MoveData) (now : ℤ) (e : Emit)
    (he : e ∈ (handleMove st sid data now).2) :
    (∃ pos rot, e = Emit.broadcastFrom sid (.playerMoved sid pos rot)) ∧
    deliveredTo e sid = false ∧
    (∀ conn, conn ≠ sid → deliveredTo e conn = true) := by
  cases data with
  | none => simp [handleMove] at he
  | some d =>
    simp only [handleMove] at he
    by_cases hdec : (rateAdmit (lookupKey sid st.playerUpdateRate) now).1 = false
    · rw [if_pos hdec] at he
      simp at he
    · rw [if_neg hdec] at he
      cases hpl : lookupKey sid st.players with
      | none =>
        rw [hpl] at he
        simp at he
      | some pl =>
        rw [hpl] at he
        dsimp only at he
        have he' : e = Emit.broadcastFrom sid (.playerMoved sid
            (validatedMove st sid d now).1 ⟨0, (validatedMove st sid d now).2, 0⟩) := by
          revert he
          split_ifs <;> intro he <;> simp at he
          exact he
        subst he'
        refine ⟨⟨_, _, rfl⟩, ?_, ?_⟩
        · simp [deliveredTo]
        · intro conn hc
          simp [deliveredTo, hc]

/-- Witness for C5 (amended): the concrete emitted event, with the
membership hypothesis discharged. -/
theorem C5_playerMoved_excludes_sender_witness :
    Emit.broadcastFrom 1 (.playerMoved 1 ⟨10, 1, 0⟩ ⟨0, 0, 0⟩)
      ∈ (handleMove stA 1 (some dA) 1100).2 ∧
    deliveredTo (Emit.broadcastFrom 1 (.playerMoved 1 ⟨10, 1, 0⟩ ⟨0, 0, 0⟩)) 1
      = false ∧
    deliveredTo (Emit.broadcastFrom 1 (.playerMoved 1 ⟨10, 1, 0⟩ ⟨0, 0, 0⟩)) 2
      = true := by
  have hmem : Emit.broadcastFrom 1 (.playerMoved 1 ⟨10, 1, 0⟩ ⟨0, 0, 0⟩)
      ∈ (handleMove stA 1 (some dA) 1100).2 := by
    rw [moveEval]
    exact List.mem_singleton_self _
  obtain ⟨_, h2, h3⟩ := C5_playerMoved_excludes_sender stA 1 (some dA) 1100 _ hmem
  exact ⟨hmem, h2, h3 2 (by norm_num)⟩

/-! ## Claim C7: atomicity of join rejection -/

/-- C7: whenever a join is rejected (nickname missing or empty after trim,
or characterType failing validation), the whole server state — registry and
rate table — is exactly unchanged, the only emission is one error message
addressed to the offending sender, and nothing is delivered to any other
connection. -/
theorem C7_join_rejection_atomic (st : ServerState) (sid : ℕ) (d : JoinData)
    (now : ℤ) (angle dist spawnRy : ℝ)
    (h : nicknameInvalid d.nickname = true ∨ characterTypeInvalid d.characterType = true) :
    (handleJoin st sid d now angle dist spawnRy).1 = st ∧
    ((handleJoin st sid d now angle dist spawnRy).2
        = [Emit.toSender sid (.errorMsg nicknameError)] ∨
      (handleJoin st sid d now angle dist spawnRy).2
        = [Emit.toSender sid (.errorMsg characterTypeError)]) ∧
    (∀ e ∈ (handleJoin st sid d now angle dist spawnRy).2, ∀ conn, conn ≠ sid →
      deliveredTo e conn = false) := by
  unfold handleJoin
  by_cases h1 : nicknameInvalid d.nickname = true
  · rw [if_pos h1]
    refine ⟨rfl, Or.inl rfl, ?_⟩
    intro e he conn hconn
    simp only [List.mem_singleton] at he
    subst he
    simp [deliveredTo, hconn]
  · rcases h with h | h
    · exact absurd h h1
    · rw [if_neg h1, if_pos h]
      refine ⟨rfl, Or.inr rfl, ?_⟩
      intro e he conn hconn
      simp only [List.mem_singleton] at he
      subst he
      simp [deliveredTo, hconn]

/-- Witness for C7: a join whose nickname is whitespace only, rejected with
the state `stA` left untouched. -/
theorem C7_join_rejection_atomic_witness :
    (nicknameInvalid (some "   ") = true ∨ characterTypeInvalid (some 0) = true) ∧
    (handleJoin stA 3 ⟨some "   ", some 0⟩ 7 0 0 0).1 = stA ∧
    (∀ e ∈ (handleJoin stA 3 ⟨some "   ", some 0⟩ 7 0 0 0).2, ∀ conn, conn ≠ 3 →
      deliveredTo e conn = false) := by
  have h : nicknameInvalid (some "   ") = true := by decide
  obtain ⟨a, _, c⟩ := C7_join_rejection_atomic stA 3 ⟨some "   ", some 0⟩ 7 0 0 0 (Or.inl h)
  exact ⟨Or.inl h, a, c⟩

/-! ## Claim C10: accepted sub-threshold moves -/

/-- C10: a rate-admitted `playerMove` from a joined player whose validated
position differs from the stored one by at most `POSITION_THRESHOLD` in
each coordinate and whose yaw differs by at most `0.01` emits nothing, yet
still overwrites the stored position, rotation and `lastUpdate` (keeping
the player alive for the liveness monitor while the change is never
broadcast), and leaves every other player's registry entry unchanged. -/
theorem C10_subthreshold_move (st : ServerState) (sid : ℕ) (d : MoveData) (now : ℤ)
    (pl : Player)
    (hpl : lookupKey sid st.players = some pl)
    (hacc : (rateAdmit (lookupKey sid st.playerUpdateRate) now).1 = true)
    (hx : ¬ POSITION_THRESHOLD < |(validatedMove st sid d now).1.x - pl.position.x|)
    (hy : ¬ POSITION_THRESHOLD < |(validatedMove st sid d now).1.y - pl.position.y|)
    (hz : ¬ POSITION_THRESHOLD < |(validatedMove st sid d now).1.z - pl.position.z|)
    (hry : ¬ (0.01 : ℝ) < |(validatedMove st sid d now).2 - pl.rotation.y|) :
    (handleMove st sid (some d) now).2 = [] ∧
    lookupKey sid (handleMove st sid (some d) now).1.players =
      some { pl with position := (validatedMove st sid d now).1,
                     rotation := ⟨0, (validatedMove st sid d now).2, 0⟩,
                     lastUpdate := now } ∧
    (∀ sid', sid' ≠ sid →
      lookupKey sid' (handleMove st sid (some d) now).1.players
        = lookupKey sid' st.players) := by
  have hC : ¬ (POSITION_THRESHOLD < |(validatedMove st sid d now).1.x - pl.position.x| ∨
      POSITION_THRESHOLD < |(validatedMove st sid d now).1.y - pl.position.y| ∨
      POSITION_THRESHOLD < |(validatedMove st sid d now).1.z - pl.position.z| ∨
      (0.01 : ℝ) < |(validatedMove st sid d now).2 - pl.rotation.y|) :=
    not_or.mpr ⟨hx, not_or.mpr ⟨hy, not_or.mpr ⟨hz, hry⟩⟩⟩
  simp only [handleMove, hpl]
  rw [if_neg (by rw [hacc]; simp)]
  rw [if_neg hC]
  refine ⟨rfl, ?_, ?_⟩
  · simp only
    rw [lookupKey_setKey, if_pos rfl]
  · intro sid' hs
    simp only
    rw [lookupKey_setKey, if_neg (Ne.symm hs)]

/-- Witness for C10: the sub-threshold move `dB` on the state `stA`, with
every hypothesis discharged. -/
theorem C10_subthreshold_move_witness :
    (rateAdmit (lookupKey 1 stA.playerUpdateRate) 1100).1 = true ∧
    (handleMove stA 1 (some dB) 1100).2 = [] ∧
    lookupKey 1 (handleMove stA 1 (some dB) 1100).1.players =
      some { pA with position := (validatedMove stA 1 dB 1100).1,
                     rotation := ⟨0, (validatedMove stA 1 dB 1100).2, 0⟩,
                     lastUpdate := 1100 } := by
  have hlp : lookupKey 1 stA.players = some pA := by
    simp [stA, lookupKey]
  have hlr : lookupKey 1 stA.playerUpdateRate = some ⟨1000, 0⟩ := by
    simp [stA, lookupKey]
  have hacc : (rateAdmit (lookupKey 1 stA.playerUpdateRate) 1100).1 = true := by
    rw [hlr, rateAdmit_stA]
  have hclamp : clampToBounds 0.005 0 = ((0.005 : ℝ), (0 : ℝ)) :=
    clampToBounds_eq_self (by norm_num)
  have hvm : validatedMove stA 1 dB 1100 = (⟨0.005, 1, 0⟩, 0.005) := by
    simp [validatedMove, hlp, hlr, rateAdmit_stA, hclamp, jsOrInt,
      validateX, validateY, validateZ, validateRy, dB, velocityGate]
  have habs1 : |(0.005 : ℝ) - 0| = 0.005 := by
    rw [sub_zero]
    exact abs_of_nonneg (by norm_num)
  have habs2 : |(1 : ℝ) - 1| = 0 := by
    rw [sub_self]
    exact abs_zero
  have habs3 : |(0 : ℝ) - 0| = 0 := by
    rw [sub_zero]
    exact abs_zero
  have hx : ¬ POSITION_THRESHOLD < |(validatedMove stA 1 dB 1100).1.x - pA.position.x| := by
    rw [hvm]
    simp only [pA]
    rw [habs1]
    unfold POSITION_THRESHOLD
    norm_num
  have hy : ¬ POSITION_THRESHOLD < |(validatedMove stA 1 dB 1100).1.y - pA.position.y| := by
    rw [hvm]
    simp only [pA]
    rw [habs2]
    unfold POSITION_THRESHOLD
    norm_num
  have hz : ¬ POSITION_THRESHOLD < |(validatedMove stA 1 dB 1100).1.z - pA.position.z| := by
    rw [hvm]
    simp only [pA]
    rw [habs3]
    unfold POSITION_THRESHOLD
    norm_num
  have hry : ¬ (0.01 : ℝ) < |(validatedMove stA 1 dB 1100).2 - pA.rotation.y| := by
    rw [hvm]
    simp only [pA]
    rw [habs1]
    norm_num
  obtain ⟨h1, h2, _⟩ := C10_subthreshold_move stA 1 dB 1100 pA hlp hacc hx hy hz hry
  exact ⟨hacc, h1, h2⟩
